import Mathlib

/-!
# Verification of the mwc-node chain-synchronization core

A shallow embedding, in Lean 4, of the parts of the mwc-node repository that
the specification talks about:

* the difficulty retargeting algorithm (`next_difficulty`) consulted by header
  sync (the algorithm itself lives outside the extracted sources, so it is
  modelled from the specification together with the exact values pinned by the
  repository test `core/tests/consensus_automated.rs`);
* `BodySync::request` and `BodySync::recieve_block_reporting` from
  `servers/src/grin/sync/body_sync.rs`;
* `SyncManager::request` from `servers/src/mwc/sync/sync_manager.rs`;
* `TUIStatusView::update_sync_status` from `src/bin/tui/status.rs`.

External collaborators (`Chain`, `Peers`, random choice, clocks) are modelled
as pure oracles packaged in environment records; machine `u64` arithmetic is
modelled on `Nat`, with an explicit wrap `% 2^64` where a multiplication can
overflow.
-/

namespace MwcNode

/-! ## Difficulty engine

Modelled from the spec: `next_difficulty` (component C3, "DifficultyEngine")
is not among the extracted source files; only its test
`core/tests/consensus_automated.rs` is.  The definitions below follow §4.3 of
the specification, with the damping and clamping factors pinned by the spec's
own scenarios S2–S5 (interval 120 s at difficulty 1000 gives exactly 750,
interval 300 s clamps to 500, a single `(ts=42, diff=10000)` sample gives
exactly 14913). -/

/-- Target time between blocks, in seconds. -/
def BLOCK_TIME_SEC : Nat := 60

/-- Number of blocks in the retarget window. -/
def DIFFICULTY_ADJUST_WINDOW : Nat := 60

/-- Total target timespan of the retarget window. -/
def BLOCK_TIME_WINDOW : Nat := DIFFICULTY_ADJUST_WINDOW * BLOCK_TIME_SEC

/-- Dampening factor for the primary difficulty moving average.
Modelled from the spec: pinned by scenario S4 (120 s interval at difficulty
1000 retargets to exactly 750, which forces a damp factor of 3). -/
def DIFFICULTY_DAMP_FACTOR : Nat := 3

/-- Clamp factor on the damped window timespan.
Modelled from the spec: pinned by scenario S5 ("hit clamp, max down-adjust"
gives 500 = 1000 / 2, forcing a clamp factor of 2). -/
def CLAMP_FACTOR : Nat := 2

/-- Floor for the primary difficulty. -/
def MIN_DIFFICULTY : Nat := DIFFICULTY_DAMP_FACTOR

/-- The data `next_difficulty` consumes per header: timestamp and difficulty
(the secondary-scaling fields play no role in the claims addressed here). -/
structure HeaderDifficultyInfo where
  timestamp : Nat
  difficulty : Nat
deriving Repr, DecidableEq

/-- `damp(actual, goal, damp_factor)`: dampened moving of `actual` toward
`goal`. -/
def damp (actual goal damp_factor : Nat) : Nat :=
  (actual + (damp_factor - 1) * goal) / damp_factor

/-- `clamp(actual, goal, clamp_factor)`: clamp `actual` into
`[goal / clamp_factor, goal * clamp_factor]`. -/
def clamp (actual goal clamp_factor : Nat) : Nat :=
  max (goal / clamp_factor) (min actual (goal * clamp_factor))

/-- Modelled from the spec: `global::difficulty_data_to_vector`.  The input
runs from the latest header backwards.  Take at most
`DIFFICULTY_ADJUST_WINDOW + 1` entries and, when fewer are available, pad with
simulated earlier blocks: each padded block copies the earliest difficulty and
steps the timestamp back by the last real timestamp delta (or `BLOCK_TIME_SEC`
when only one real entry exists), saturating at zero.  The result is reversed
to run from earliest to latest. -/
def difficulty_data_to_vector (cursor : List HeaderDifficultyInfo) :
    List HeaderDifficultyInfo :=
  let needed := DIFFICULTY_ADJUST_WINDOW + 1
  let last_n := cursor.take needed
  let missing := needed - last_n.length
  match last_n.head? with
  | none => []
  | some newest =>
    let last_ts_delta :=
      match last_n with
      | a :: b :: _ => a.timestamp - b.timestamp
      | _ => BLOCK_TIME_SEC
    let last_diff := newest.difficulty
    let oldest_ts :=
      match last_n.getLast? with
      | some oldest => oldest.timestamp
      | none => 0
    let pad := (List.range missing).map (fun i =>
      { timestamp := oldest_ts - (i + 1) * last_ts_delta
        difficulty := last_diff : HeaderDifficultyInfo })
    (last_n ++ pad).reverse

/-- Modelled from the spec (§4.3): the next primary difficulty from a window
of `HeaderDifficultyInfo`, latest first.  The window timespan is dampened
toward `BLOCK_TIME_WINDOW` and clamped, the window difficulty sum (skipping
the earliest entry) is scaled by `BLOCK_TIME_SEC` over the adjusted timespan,
and the result is floored at the minimum difficulty. -/
def next_difficulty (cursor : List HeaderDifficultyInfo) : Nat :=
  let diff_data := difficulty_data_to_vector cursor
  let ts_delta :=
    (match diff_data.getLast? with
     | some newest => newest.timestamp
     | none => 0) -
    (match diff_data.head? with
     | some oldest => oldest.timestamp
     | none => 0)
  let diff_sum := ((diff_data.drop 1).map (fun d => d.difficulty)).sum
  let adj_ts := clamp (damp ts_delta BLOCK_TIME_WINDOW DIFFICULTY_DAMP_FACTOR)
    BLOCK_TIME_WINDOW CLAMP_FACTOR
  max MIN_DIFFICULTY (diff_sum * BLOCK_TIME_SEC / adj_ts)

/-- Helper for `mkWindow`: emit entries whose timestamps count down from
`t0 + k * interval` in steps of `interval`. -/
def mkWindowAux (t0 interval : Nat) : Nat → List Nat → List HeaderDifficultyInfo
  | _, [] => []
  | k, dj :: rest =>
    { timestamp := t0 + k * interval, difficulty := dj } ::
      mkWindowAux t0 interval (k - 1) rest

/-- A constant-interval retarget window, latest first: entry `j` (counting
from the latest) has timestamp `t0 + (n - 1 - j) * interval` and the `j`-th
difficulty of `diffs` (the shape the repository test helper `repeat`
builds). -/
def mkWindow (t0 interval : Nat) (diffs : List Nat) : List HeaderDifficultyInfo :=
  mkWindowAux t0 interval (diffs.length - 1) diffs

/-! ## Shared sync data model -/

/-- `SyncRequestResponses`: what each syncer returns
(`servers/src/mwc/sync/sync_utils.rs`, listed in the spec's data model). -/
inductive SyncRequestResponses where
  | WaitingForPeers
  | Syncing
  | WaitingForHeadersHash
  | WaitingForHeaders
  | HeadersHashReady
  | HeadersPibdReady
  | HeadersReady
  | StatePibdReady
  | BodyReady
  | SyncDone
  | BadState
deriving Repr, DecidableEq

/-- `SyncStatus`: the status variants reported upward for UI/telemetry
(`chain::SyncStatus`, as consumed by `src/bin/tui/status.rs` and produced by
`body_sync.rs`).  All numeric fields are `u64` values, modelled as `Nat`. -/
inductive SyncStatus where
  | Initial
  | NoSync
  | AwaitingPeers
  | HeaderHashSync (completed_blocks total_blocks : Nat)
  | HeaderSync (current_height archive_height : Nat)
  | TxHashsetPibd (recieved_segments total_segments : Nat)
  | ValidatingKernelsHistory
  | TxHashsetHeadersValidation (headers headers_total : Nat)
  | TxHashsetKernelsPosValidation (kernel_pos kernel_pos_total : Nat)
  | TxHashsetRangeProofsValidation (rproofs rproofs_total : Nat)
  | TxHashsetKernelsValidation (kernels kernels_total : Nat)
  | BodySync (archive_height current_height highest_height : Nat)
  | Shutdown
deriving Repr, DecidableEq

/-- Modelled from the spec (§4.2): `SyncPeers`, two per-peer ledgers — an ok
counter and a list of accumulated error messages (the error count is the
length of that list).  The implementation file `sync_peers.rs` is not among
the extracted sources.  Peer addresses are opaque `Nat` identifiers. -/
structure SyncPeers where
  ok : Nat → Nat
  errs : Nat → List String

/-- `report_ok_response(peer)`: increment the peer's ok counter. -/
def SyncPeers.report_ok_response (sp : SyncPeers) (p : Nat) : SyncPeers :=
  { sp with ok := fun q => if q = p then sp.ok q + 1 else sp.ok q }

/-- `report_error_response(peer, msg)`: record an error message for the
peer. -/
def SyncPeers.report_error_response (sp : SyncPeers) (p : Nat) (msg : String) :
    SyncPeers :=
  { sp with errs := fun q => if q = p then msg :: sp.errs q else sp.errs q }

/-! ## Request tracker

Modelled from the spec (§4.1): `RequestTracker<K>` lives in
`servers/src/mwc/sync/sync_utils.rs`, which is not among the extracted
sources.  Keys and peer addresses are `Nat`; one record per inflight key. -/

/-- One tracked inflight request: key, owing peer, label,
issue timestamp. -/
structure TrackerEntry where
  key : Nat
  peer : Nat
  label : String
  issued_at : Nat
deriving Repr, DecidableEq

/-- Modelled from the spec (§4.1): the tracker state — the inflight records
plus the `update_requests_to_next_ask` countdown. -/
structure RequestTracker where
  requests : List TrackerEntry
  next_ask : Nat
deriving Repr, DecidableEq

/-- Modelled from the spec: value the refill countdown is reset to. -/
def UPDATE_REQUESTS_PER_ASK : Nat := 10

/-- `has_request(key)`. -/
def RequestTracker.has_request (t : RequestTracker) (k : Nat) : Bool :=
  t.requests.any (fun e => e.key == k)

/-- `register_request(key, peer, label)`: insert; fails silently if the key
is already present.  Modelled from the spec: the refill countdown "resets
when refill runs", so registration resets it. -/
def RequestTracker.register_request (t : RequestTracker) (k p : Nat)
    (label : String) (now : Nat) : RequestTracker :=
  if t.has_request k then t
  else
    { requests := t.requests ++ [⟨k, p, label, now⟩]
      next_ask := UPDATE_REQUESTS_PER_ASK }

/-- `remove_request(key) -> Option<PeerAddr>`: drop the record and return the
owing peer.  Modelled from the spec: the refill countdown "decrements on each
response", so each call decrements it (saturating). -/
def RequestTracker.remove_request (t : RequestTracker) (k : Nat) :
    Option Nat × RequestTracker :=
  match t.requests.find? (fun e => e.key == k) with
  | some e =>
    (some e.peer,
     { requests := t.requests.filter (fun e2 => e2.key ≠ k)
       next_ask := t.next_ask - 1 })
  | none => (none, { t with next_ask := t.next_ask - 1 })

/-- `get_requests_num()`. -/
def RequestTracker.get_requests_num (t : RequestTracker) : Nat :=
  t.requests.length

/-- Per-peer queue depth (one component of `get_peers_queue_size()`). -/
def RequestTracker.peer_queue_size (t : RequestTracker) (p : Nat) : Nat :=
  (t.requests.filter (fun e => e.peer == p)).length

/-- `get_update_requests_to_next_ask()`. -/
def RequestTracker.get_update_requests_to_next_ask (t : RequestTracker) : Nat :=
  t.next_ask

/-- `retain_expired(timeout, sync_peers)`: drop records issued at least
`timeout` seconds ago and charge an error to each owing peer. -/
def RequestTracker.retain_expired (t : RequestTracker) (timeout now : Nat)
    (sp : SyncPeers) : RequestTracker × SyncPeers :=
  let expired := t.requests.filter (fun e => timeout ≤ now - e.issued_at)
  ({ t with requests := t.requests.filter (fun e => now - e.issued_at < timeout) },
   expired.foldl
     (fun sp2 e => sp2.report_error_response e.peer ("Request " ++ e.label ++ " is expired"))
     sp)

/-- `calculate_needed_requests(peer_count, excluded, per_peer_cap,
global_cap)`: `min(global_cap - inflight, peer_count * per_peer_cap -
excluded)`, clamped non-negative (`Nat` subtraction saturates). -/
def RequestTracker.calculate_needed_requests (t : RequestTracker)
    (peer_num excluded per_peer global_limit : Nat) : Nat :=
  min (global_limit - t.requests.length) (peer_num * per_peer - excluded)

/-! ## Chain and peer oracles -/

/-- A chain `Tip`: height and last block hash. -/
structure Tip where
  height : Nat
  last_block_h : Nat
deriving Repr, DecidableEq

/-- A block header, reduced to the fields body sync reads: its height and its
hash. -/
structure HeaderC where
  height : Nat
  hash : Nat
deriving Repr, DecidableEq

/-- The `Chain` collaborator as a read-only oracle (spec §6): a snapshot of
everything body sync queries during one tick.  `header_hash_at h` gives the
hash of the header-chain header at height `h` (`get_header_by_height` errors
exactly when it is `none`, and `get_previous_header` follows the header chain
one height down). -/
structure ChainO where
  head : Tip
  header_head : Tip
  fork_point : HeaderC
  archive_mode : Bool
  header_hash_at : Nat → Option Nat
  is_orphan : Nat → Bool
  block_exists : Nat → Bool
  has_orphan : Nat → Bool
  process_ok : Nat → Bool

/-- `get_header_by_height`. -/
def ChainO.header_by_height (c : ChainO) (h : Nat) : Option HeaderC :=
  (c.header_hash_at h).map (fun hs => ⟨h, hs⟩)

/-- Capability bits (only the ones body sync uses). -/
def CAP_UNKNOWN : Nat := 0

/-- `Capabilities::HEADER_HIST`. -/
def CAP_HEADER_HIST : Nat := 1

/-- `Capabilities::BLOCK_HIST`. -/
def CAP_BLOCK_HIST : Nat := 2

/-- Modelled from the spec (§5): `pibd_params::BLOCKS_REQUEST_PER_PEER`,
"typically 10". -/
def BLOCKS_REQUEST_PER_PEER : Nat := 10

/-- Modelled from the spec (§5): `pibd_params::BLOCKS_REQUEST_LIMIT`,
"typically ~100". -/
def BLOCKS_REQUEST_LIMIT : Nat := 100

/-- Modelled from the spec (§5): `pibd_params::SEGMENT_REQUEST_TIMEOUT_SECS`,
"typically 30–60 s". -/
def SEGMENT_REQUEST_TIMEOUT_SECS : Nat := 30

/-- The environment of one `BodySync` call: the chain snapshot, the consensus
function `Chain::height_2_archive_height`, the peer-selection collaborator
`sync_utils::get_sync_peers` (inputs: capability mask, head height, inflight
count; output: qualified peer addresses and the excluded-requests count), the
transport send outcome per (peer, block hash), the random stream consumed by
`peers.choose(rng)`, and the clock. -/
structure BodyEnv where
  chain : ChainO
  h2a : Nat → Nat
  sync_peers_for : Nat → Nat → Nat → List Nat × Nat
  send_ok : Nat → Nat → Bool
  rng : Nat → Nat
  now : Nat

/-- `BodySync`'s own state (`body_sync.rs`, struct `BodySync`). -/
structure BodySyncS where
  required_capabilities : Nat
  request_tracker : RequestTracker
  request_series : List (Nat × Nat)

/-- Outcome of a code path that can diverge: a value, an `Err(chain::Error)`
propagated by `?`, or a panic (`expect`). -/
inductive RunResult (α : Type) where
  | ok (a : α)
  | chainErr
  | panic
deriving Repr

/-- Is this outcome the panic one? -/
def RunResult.isPanic {α : Type} : RunResult α → Bool
  | .panic => true
  | _ => false

/-- Everything one `BodySync::request` tick produces: the returned response,
the updated syncer state and peer ledgers, the `sync_state.update` calls made,
and the block requests sent as (block hash, peer) pairs. -/
structure BodyOut where
  resp : SyncRequestResponses
  state : BodySyncS
  speers : SyncPeers
  status_updates : List SyncStatus
  sends : List (Nat × Nat)

/-- `BodySync::is_need_request_block`: a block still needs requesting when it
is not inflight, not an orphan and not already stored. -/
def isNeedRequestBlock (env : BodyEnv) (t : RequestTracker) (h : Nat) : Bool :=
  !(t.has_request h || env.chain.is_orphan h || env.chain.block_exists h)

/-- `peers.choose(rng)`: uniform choice from a slice, `none` exactly when the
slice is empty (the source unwraps this with
`expect("Peers can't be empty")`). -/
def choosePeer (env : BodyEnv) (peers : List Nat) (i : Nat) : Option Nat :=
  peers.get? (env.rng i % peers.length)

/-- Mutable state threaded through `BodySync::send_requests`. -/
structure SendSt where
  tracker : RequestTracker
  speers : SyncPeers
  need : Nat
  rngIdx : Nat
  sends : List (Nat × Nat)

/-- `BodySync::send_requests`: walk `request_series` from its tail toward its
head; for every block that still needs requesting pick a random peer and send
it a block request, registering it in the tracker on success and charging the
peer an error on send failure; stop when `need` reaches zero.  `none` models
the `expect` panic on an empty peer slice. -/
def sendRequestsLoop (env : BodyEnv) (peers : List Nat) :
    List (Nat × Nat) → SendSt → Option SendSt
  | [], st => some st
  | (hash, height) :: rest, st =>
    if isNeedRequestBlock env st.tracker hash then
      match choosePeer env peers st.rngIdx with
      | none => none
      | some pa =>
        if env.send_ok pa hash then
          let st2 : SendSt :=
            { tracker := st.tracker.register_request hash pa
                ("Block " ++ toString hash ++ ", " ++ toString height) env.now
              speers := st.speers
              need := st.need - 1
              rngIdx := st.rngIdx + 1
              sends := st.sends ++ [(hash, pa)] }
          if st2.need = 0 then some st2 else sendRequestsLoop env peers rest st2
        else
          sendRequestsLoop env peers rest
            { st with
              speers := st.speers.report_error_response pa
                ("Failed to send block request to peer " ++ toString pa)
              rngIdx := st.rngIdx + 1 }
    else sendRequestsLoop env peers rest st

/-- The `request_series` rebuild loop of `BodySync::request`: walk the header
chain from `cur` down to the fork point, collecting `(hash, height)` for every
header that is not an orphan.  `fuel` bounds the walk (calls pass
`cur.height`, and each `get_previous_header` step drops the height by one, so
the fuel never runs out on chain-consistent inputs); `none` models a
propagated chain error. -/
def seriesLoop (c : ChainO) (forkH : Nat) :
    Nat → HeaderC → Option (List (Nat × Nat))
  | 0, cur => if forkH < cur.height then none else some []
  | fuel + 1, cur =>
    if forkH < cur.height then
      match c.header_by_height (cur.height - 1) with
      | none => none
      | some prev =>
        match seriesLoop c forkH fuel prev with
        | none => none
        | some rest =>
          some ((if c.is_orphan cur.hash then [] else [(cur.hash, cur.height)]) ++ rest)
    else some []

/-- The `request_series` refresh of `BodySync::request` (lines 178–195):
clear the series and rebuild it from
`min(fork_point.height + 500, header_head.height)` down to the fork point. -/
def seriesRebuild (env : BodyEnv) (forkH : Nat) : Option (List (Nat × Nat)) :=
  let maxH := min (forkH + 500) env.chain.header_head.height
  match env.chain.header_by_height maxH with
  | none => none
  | some hdr => seriesLoop env.chain forkH hdr.height hdr

/-- `BodySync::request` after the initial head/header-head equality check:
archive-height bad-state check, capability selection, peer selection,
expiration sweep, status update, and the two `send_requests` passes around
the `request_series` refresh and orphan kick-through. -/
def bodyRequestMain (env : BodyEnv) (s : BodySyncS) (sp : SyncPeers)
    (best_height : Nat) : RunResult BodyOut :=
  let archive_height := env.h2a best_height
  let head := env.chain.head
  let fork := env.chain.fork_point
  if env.chain.archive_mode = false ∧ fork.height < archive_height then
    .ok ⟨.BadState, s, sp, [], []⟩
  else
    let caps :=
      if env.chain.archive_mode ∧ head.height ≤ archive_height then
        (CAP_BLOCK_HIST, CAP_BLOCK_HIST ||| CAP_HEADER_HIST)
      else (CAP_UNKNOWN, CAP_HEADER_HIST)
    let s1 := { s with required_capabilities := caps.2 }
    let pe := env.sync_peers_for caps.1 head.height s1.request_tracker.get_requests_num
    if pe.1 = [] then
      .ok ⟨if pe.2 = 0 then .WaitingForPeers else .Syncing, s1, sp, [], []⟩
    else
      let ts := s1.request_tracker.retain_expired SEGMENT_REQUEST_TIMEOUT_SECS env.now sp
      let s2 := { s1 with request_tracker := ts.1 }
      let sp2 := ts.2
      let status := [SyncStatus.BodySync
        (if env.chain.archive_mode then 0 else archive_height) fork.height best_height]
      let need := s2.request_tracker.calculate_needed_requests pe.1.length pe.2
        BLOCKS_REQUEST_PER_PEER BLOCKS_REQUEST_LIMIT
      if need = 0 then .ok ⟨.Syncing, s2, sp2, status, []⟩
      else
        match sendRequestsLoop env pe.1 s2.request_series.reverse
            ⟨s2.request_tracker, sp2, need, 0, []⟩ with
        | none => .panic
        | some st1 =>
          let s3 := { s2 with request_tracker := st1.tracker }
          if st1.need = 0 then .ok ⟨.Syncing, s3, st1.speers, status, st1.sends⟩
          else
            let refresh_tail :=
              match s3.request_series.getLast? with
              | some (h, _) => !(isNeedRequestBlock env s3.request_tracker h)
              | none => true
            let orphan_kick :=
              match env.chain.header_by_height (fork.height + 1) with
              | some hdr => env.chain.has_orphan hdr.hash && env.chain.process_ok hdr.hash
              | none => false
            if refresh_tail || orphan_kick then
              match seriesRebuild env fork.height with
              | none => .chainErr
              | some new_series =>
                let s4 := { s3 with request_series := new_series }
                match sendRequestsLoop env pe.1 s4.request_series.reverse st1 with
                | none => .panic
                | some st2 =>
                  .ok ⟨.Syncing, { s4 with request_tracker := st2.tracker },
                    st2.speers, status, st2.sends⟩
            else
              match sendRequestsLoop env pe.1 s3.request_series.reverse st1 with
              | none => .panic
              | some st2 =>
                .ok ⟨.Syncing, { s3 with request_tracker := st2.tracker },
                  st2.speers, status, st2.sends⟩

/-- `BodySync::request` (`body_sync.rs`, lines 50–203): return `BodyReady`
immediately when the chain head and header head agree on the last block hash,
otherwise run the main body-sync tick. -/
def bodySyncRequest (env : BodyEnv) (s : BodySyncS) (sp : SyncPeers)
    (best_height : Nat) : RunResult BodyOut :=
  if env.chain.head.last_block_h = env.chain.header_head.last_block_h then
    .ok ⟨.BodyReady, s, sp, [], []⟩
  else bodyRequestMain env s sp best_height

/-- The first half of `BodySync::recieve_block_reporting` (`body_sync.rs`,
lines 213–226): remove the tracked request for the reported hash, credit an
ok when the block was accepted and the tracked peer is the reporter, and
charge an error on any rejected block. -/
def blockReportCore (s : BodySyncS) (sp : SyncPeers) (accepted : Bool)
    (block_hash peer : Nat) : BodySyncS × SyncPeers :=
  let rem := s.request_tracker.remove_request block_hash
  let s1 := { s with request_tracker := rem.2 }
  let sp1 :=
    match rem.1 with
    | some peer_adr =>
      if accepted ∧ peer_adr = peer then sp.report_ok_response peer else sp
    | none => sp
  let sp2 :=
    if accepted then sp1
    else sp1.report_error_response peer
      ("Get bad block " ++ toString block_hash ++ " for peer " ++ toString peer)
  (s1, sp2)

/-- `BodySync::recieve_block_reporting` (`body_sync.rs`, lines 205–258):
the reporting step `blockReportCore` followed by the opportunistic refill
that fires when the countdown has reached zero.  `none` models the
`send_requests` panic. -/
def recieveBlockReporting (env : BodyEnv) (s : BodySyncS) (sp : SyncPeers)
    (accepted : Bool) (block_hash peer : Nat) :
    Option (BodySyncS × SyncPeers × List (Nat × Nat)) :=
  let core := blockReportCore s sp accepted block_hash peer
  let s1 := core.1
  let sp2 := core.2
  if s1.request_tracker.get_update_requests_to_next_ask = 0 then
    let pe := env.sync_peers_for s1.required_capabilities env.chain.head.height
      s1.request_tracker.get_requests_num
    if pe.1 = [] then some (s1, sp2, [])
    else
      let need := s1.request_tracker.calculate_needed_requests pe.1.length pe.2
        BLOCKS_REQUEST_PER_PEER BLOCKS_REQUEST_LIMIT
      if need = 0 then some (s1, sp2, [])
      else
        match sendRequestsLoop env pe.1 s1.request_series.reverse
            ⟨s1.request_tracker, sp2, need, 0, []⟩ with
        | none => none
        | some st => some ({ s1 with request_tracker := st.tracker }, st.speers, st.sends)
  else some (s1, sp2, [])

/-! ## SyncManager (`servers/src/mwc/sync/sync_manager.rs`) -/

/-- A connected peer as the manager sees it: address, direction, and the
`live_info` height and total difficulty (`u64` values, as `Nat`). -/
structure PeerM where
  addr : Nat
  is_outbound : Bool
  height : Nat
  total_difficulty : Nat
deriving Repr, DecidableEq

/-- The key `SyncManager::request` hands to `max_by_key`: the peer's total
difficulty, or 0 when its reported height is 0. -/
def peerKey (p : PeerM) : Nat :=
  if 0 < p.height then p.total_difficulty else 0

/-- Rust's `Iterator::max_by_key`: the maximal element by key; among equal
keys, the last one. -/
def maxByKeyLast (key : PeerM → Nat) : List PeerM → Option PeerM
  | [] => none
  | p :: ps =>
    match maxByKeyLast key ps with
    | none => some p
    | some q => if key q < key p then some p else some q

/-- The `best_height` computation of `SyncManager::request` (lines 81–111):
`max_by_key` with `peerKey` over the connected outbound peers, falling back
to all connected peers when there are no connected outbound peers, then the
chosen peer's height (0 when there are no peers at all). -/
def bestHeightOf (peers : List PeerM) : Nat :=
  let best :=
    match maxByKeyLast peerKey (peers.filter (fun p => p.is_outbound)) with
    | some p => some p
    | none => maxByKeyLast peerKey peers
  match best with
  | some p => p.height
  | none => 0

/-- The specification's own description of `best_height` (spec §4.8 step 3,
claim C1), stated verbatim for comparison with `bestHeightOf`: the maximum
`live_info.height` among outbound-connected peers with `height > 0`, falling
back to all connected peers when there is no such outbound peer. -/
def claimBestHeight (peers : List PeerM) : Nat :=
  let outboundPos := peers.filter (fun p => p.is_outbound && decide (0 < p.height))
  let maxHeight := fun (l : List PeerM) => (l.map PeerM.height).foldr max 0
  if outboundPos.isEmpty then maxHeight peers else maxHeight outboundPos

/-- A `SyncResponse`: response variant, peer capabilities to use, and a
human-readable message. -/
structure SyncResponse where
  response : SyncRequestResponses
  capabilities : Nat
  message : String
deriving Repr, DecidableEq

/-- Modelled from the spec (§4.8 step 1): `CachedResponse` from
`sync_utils.rs` (not among the extracted sources) — the stored response and
its creation time; it expires once more than its time-to-live (180 seconds
for the `SyncDone` cache) has passed. -/
structure CachedResponse where
  resp : SyncResponse
  created : Nat
deriving Repr, DecidableEq

/-- `SyncManager` state relevant to orchestration: the cached response. -/
structure ManagerS where
  cached_response : Option CachedResponse
deriving Repr, DecidableEq

/-- The stage syncers the manager consults, as oracles: what each stage's
`request` would answer this tick.  `bodyResp` can be a chain error (the
manager logs it), and `bodyCaps` is `BodySync::get_peer_capabilities`. -/
structure ManagerEnv where
  peers : List PeerM
  hashResp : SyncResponse
  headersResp : SyncResponse
  stateResp : SyncResponse
  bodyResp : RunResult SyncResponse
  bodyCaps : Nat
  now : Nat

/-- Which collaborator calls one `SyncManager::request` tick performed. -/
structure ManagerEffects where
  ranHeadersHash : Bool
  ranHeaders : Bool
  ranState : Bool
  ranBody : Bool
  resetDesegmenter : Bool
  resetBanCommited : Bool
  resetHashData : Bool
  resetHeadersSyncPeers : Bool
deriving Repr, DecidableEq

/-- No collaborator calls at all. -/
def noEffects : ManagerEffects :=
  ⟨false, false, false, false, false, false, false, false⟩

/-- `SyncManager::request` past the cached-response check (lines 77–228):
best-height discovery, then the four stages in order with the source's
response dispatch (unexpected variants are debug-asserted and fall
through). -/
def managerRequestMain (e : ManagerEnv) (m : ManagerS) :
    SyncResponse × ManagerS × ManagerEffects :=
  let best_height := bestHeightOf e.peers
  if best_height = 0 then
    (⟨.WaitingForPeers, CAP_UNKNOWN, "Peers height is 0"⟩, m, noEffects)
  else
    let eff0 : ManagerEffects := { noEffects with ranHeadersHash := true }
    if e.hashResp.response = .WaitingForPeers ∨ e.hashResp.response = .Syncing then
      (e.hashResp, m, eff0)
    else
      let eff1 : ManagerEffects := { eff0 with ranHeaders := true }
      if e.headersResp.response = .WaitingForPeers then
        (e.headersResp, m,
         { eff1 with resetBanCommited := true, resetHeadersSyncPeers := true })
      else if e.headersResp.response = .Syncing ∨
          e.headersResp.response = .WaitingForHeadersHash then
        (e.headersResp, m, eff1)
      else
        let headers_ready := e.headersResp.response = .HeadersReady
        let eff2 : ManagerEffects :=
          { eff1 with
            ranState := true
            resetHashData := decide (e.headersResp.response = .HeadersPibdReady) }
        if e.stateResp.response = .Syncing ∨ e.stateResp.response = .WaitingForPeers ∨
            e.stateResp.response = .WaitingForHeaders then
          (e.stateResp, m, eff2)
        else
          let eff3 : ManagerEffects := { eff2 with ranBody := true }
          match e.bodyResp with
          | .ok body_resp =>
            if body_resp.response = .Syncing then (body_resp, m, eff3)
            else if body_resp.response = .BodyReady then
              if headers_ready then
                let resp : SyncResponse := ⟨.SyncDone, CAP_UNKNOWN, "DONE!"⟩
                (resp, { cached_response := some ⟨resp, e.now⟩ }, eff3)
              else
                (⟨.Syncing, e.bodyCaps,
                  "Waiting for headers, even body is done, more is expected"⟩, m, eff3)
            else if body_resp.response = .WaitingForPeers then (body_resp, m, eff3)
            else if body_resp.response = .BadState then
              (body_resp, m, { eff3 with resetDesegmenter := true })
            else (⟨.Syncing, CAP_UNKNOWN, "Invalid state, internal error"⟩, m, eff3)
          | _ => (⟨.Syncing, CAP_UNKNOWN, "Invalid state, internal error"⟩, m, eff3)

/-- `SyncManager::request` (lines 68–229): short-circuit on an unexpired
cached response, dropping an expired one, then run the staged tick. -/
def managerRequest (e : ManagerEnv) (m : ManagerS) :
    SyncResponse × ManagerS × ManagerEffects :=
  match m.cached_response with
  | some c =>
    if c.created + 180 < e.now then managerRequestMain e { cached_response := none }
    else (c.resp, m, noEffects)
  | none => managerRequestMain e m

/-! ## TUI status rendering (`src/bin/tui/status.rs`) -/

/-- Wrap to `u64` (release-mode Rust multiplication wraps on overflow). -/
def w64 (x : Nat) : Nat := x % 18446744073709551616

/-- `TUIStatusView::update_sync_status`: render a `SyncStatus` as the status
line shown in the TUI.  `u64` subtraction in the `BodySync` arm is the
source's `saturating_sub` (as is `Nat` subtraction); products are wrapped to
`u64`. -/
def update_sync_status (st : SyncStatus) : String :=
  match st with
  | .Initial => "Initializing"
  | .NoSync => "Running"
  | .AwaitingPeers => "Waiting for peers"
  | .HeaderHashSync completed total =>
    "Sync step 1/7: Downloading headers hashes - " ++ toString completed ++
      "/" ++ toString total
  | .HeaderSync current archive =>
    let percent := if archive = 0 then 0 else w64 (current * 100) / archive
    "Sync step 1/7: Downloading headers: " ++ toString percent ++ "%"
  | .TxHashsetPibd recieved total =>
    if recieved = 0 ∧ total = 100 then
      "Sync step 2/7: Selecting peers, waiting for PIBD root hash"
    else
      let percent := if total = 0 then 0 else w64 (recieved * 100) / total
      "Sync step 2/7: Downloading Tx state (PIBD) - " ++ toString recieved ++
        " / " ++ toString total ++ " segments - " ++ toString percent ++ "%"
  | .ValidatingKernelsHistory => "Sync step 3/7: Validating kernels history"
  | .TxHashsetHeadersValidation headers headers_total =>
    let percent := if headers_total = 0 then 0 else w64 (headers * 100) / headers_total
    "Sync step 3/7: Validating headers - " ++ toString headers ++ " / " ++
      toString headers_total ++ " segments - " ++ toString percent ++ "%"
  | .TxHashsetKernelsPosValidation kernel_pos kernel_pos_total =>
    let percent :=
      if kernel_pos_total = 0 then 0 else w64 (kernel_pos * 100) / kernel_pos_total
    "Sync step 4/7: Validation kernel position - " ++ toString kernel_pos ++
      "/" ++ toString kernel_pos_total ++ " - " ++ toString percent ++ "%"
  | .TxHashsetRangeProofsValidation rproofs rproofs_total =>
    let percent := if 0 < rproofs_total then w64 (rproofs * 100) / rproofs_total else 0
    "Sync step 5/7: Validating chain state - range proofs: " ++ toString percent ++ "%"
  | .TxHashsetKernelsValidation kernels kernels_total =>
    let percent := if 0 < kernels_total then w64 (kernels * 100) / kernels_total else 0
    "Sync step 6/7: Validating chain state - kernels: " ++ toString percent ++ "%"
  | .BodySync archive current highest =>
    let percent :=
      if highest - archive = 0 then 0
      else w64 ((current - archive) * 100) / (highest - archive)
    "Sync step 7/7: Downloading blocks: " ++ toString percent ++ "%"
  | .Shutdown => "Shutting down, closing connections"

/-! ## Concrete witness inputs -/

/-- A single outbound peer at height 3 with total difficulty 7. -/
def peersW : List PeerM := [⟨0, true, 3, 7⟩]

/-- A manager environment with no connected peers (all stage oracles answer
`Syncing`; they are never reached). -/
def envNoPeers : ManagerEnv :=
  { peers := []
    hashResp := ⟨.Syncing, 0, ""⟩
    headersResp := ⟨.Syncing, 0, ""⟩
    stateResp := ⟨.Syncing, 0, ""⟩
    bodyResp := .ok ⟨.Syncing, 0, ""⟩
    bodyCaps := 0
    now := 0 }

/-- A manager with no cached response. -/
def managerW : ManagerS := ⟨none⟩

/-- Does a sends list contain a request for the given block hash? -/
def sendsHas (sends : List (Nat × Nat)) (k : Nat) : Bool :=
  sends.any (fun x => x.1 = k)

/-- Empty peer ledgers. -/
def spW : SyncPeers := ⟨fun _ => 0, fun _ => []⟩

/-- An empty request tracker with refill countdown 5. -/
def trackerW : RequestTracker := ⟨[], 5⟩

/-- A fresh body-sync state. -/
def sW : BodySyncS := ⟨0, trackerW, []⟩

/-- A body-sync state tracking block hash 1 as owed by peer 2. -/
def sTracked : BodySyncS := ⟨0, ⟨[⟨1, 2, "Block 1, 4", 0⟩], 5⟩, []⟩

/-- What reporting block 1 accepted by peer 2 against `sTracked` produces:
the request removed and an ok credited to peer 2. -/
def outAcc : BodySyncS × SyncPeers × List (Nat × Nat) :=
  (⟨0, ⟨[], 4⟩, []⟩, spW.report_ok_response 2, [])

/-- What reporting block 1 rejected by peer 2 against `sTracked` produces:
the request removed and the bad-block error charged to peer 2. -/
def outRej : BodySyncS × SyncPeers × List (Nat × Nat) :=
  (⟨0, ⟨[], 4⟩, []⟩,
   spW.report_error_response 2
     ("Get bad block " ++ toString 1 ++ " for peer " ++ toString 2), [])

/-- A chain snapshot behind the horizon: chain head and header head differ,
archive mode is off, and the fork point (height 3) is below any reasonable
archive height. -/
def chainBad : ChainO :=
  { head := ⟨5, 1⟩
    header_head := ⟨9, 2⟩
    fork_point := ⟨3, 30⟩
    archive_mode := false
    header_hash_at := fun _ => none
    is_orphan := fun _ => false
    block_exists := fun _ => false
    has_orphan := fun _ => false
    process_ok := fun _ => false }

/-- A body environment over `chainBad` with no sync peers available and
`height_2_archive_height` the identity. -/
def envBad : BodyEnv :=
  { chain := chainBad
    h2a := fun x => x
    sync_peers_for := fun _ _ _ => ([], 0)
    send_ok := fun _ _ => true
    rng := fun _ => 0
    now := 100 }

/-- A chain snapshot whose head and header head agree on the last block
hash. -/
def chainEq : ChainO :=
  { chainBad with head := ⟨5, 1⟩, header_head := ⟨5, 1⟩ }

/-- A body environment over `chainEq`. -/
def envEq : BodyEnv :=
  { envBad with chain := chainEq }

/-- A chain snapshot on which a full body-sync tick runs: archive mode, a ten
block header chain, fork point at height 3, header head at height 9, no
orphans and no stored blocks past the fork. -/
def chainRun : ChainO :=
  { head := ⟨5, 1⟩
    header_head := ⟨9, 2⟩
    fork_point := ⟨3, 30⟩
    archive_mode := true
    header_hash_at := fun h => if h ≤ 9 then some (100 + h) else none
    is_orphan := fun _ => false
    block_exists := fun _ => false
    has_orphan := fun _ => false
    process_ok := fun _ => false }

/-- A body environment over `chainRun` with a single sync peer (address 4)
whose sends always succeed. -/
def envRun : BodyEnv :=
  { chain := chainRun
    h2a := fun x => x - 7
    sync_peers_for := fun _ _ _ => ([4], 0)
    send_ok := fun _ _ => true
    rng := fun _ => 0
    now := 100 }

/-- The outcome of one `bodySyncRequest` tick over `envRun` starting from the
fresh state `sW`: six blocks (heights 4–9) collected into `request_series`
and requested from peer 4. -/
def outRun : BodyOut :=
  ⟨.Syncing,
   ⟨CAP_HEADER_HIST,
    ⟨[⟨104, 4, "Block 104, 4", 100⟩, ⟨105, 4, "Block 105, 5", 100⟩,
      ⟨106, 4, "Block 106, 6", 100⟩, ⟨107, 4, "Block 107, 7", 100⟩,
      ⟨108, 4, "Block 108, 8", 100⟩, ⟨109, 4, "Block 109, 9", 100⟩], 10⟩,
    [(109, 9), (108, 8), (107, 7), (106, 6), (105, 5), (104, 4)]⟩,
   spW, [SyncStatus.BodySync 0 3 7],
   [(104, 4), (105, 4), (106, 4), (107, 4), (108, 4), (109, 4)]⟩

/-- The `SyncDone` response the manager caches. -/
def respDone : SyncResponse := ⟨.SyncDone, CAP_UNKNOWN, "DONE!"⟩

/-- A manager environment in which every stage is ready: body reports
`BodyReady` in the same tick in which header sync reports `HeadersReady`. -/
def envDone : ManagerEnv :=
  { peers := peersW
    hashResp := ⟨.HeadersHashReady, 0, "hashes done"⟩
    headersResp := ⟨.HeadersReady, 0, "headers done"⟩
    stateResp := ⟨.StatePibdReady, 0, "state done"⟩
    bodyResp := .ok ⟨.BodyReady, 0, "body done"⟩
    bodyCaps := 0
    now := 5 }

/-- A manager environment in which body sync reports `BadState`. -/
def envBadState : ManagerEnv :=
  { envDone with bodyResp := .ok ⟨.BadState, 0, "behind horizon"⟩ }

/-- A manager that cached `respDone` at time 5. -/
def managerCached : ManagerS := ⟨some ⟨respDone, 5⟩⟩

/-! ## Helper lemmas -/

theorem maxByKeyLast_isSome (key : PeerM → Nat) (p : PeerM) (ps : List PeerM) :
    (maxByKeyLast key (p :: ps)).isSome := by
  unfold maxByKeyLast
  cases maxByKeyLast key ps with
  | none => rfl
  | some q => by_cases h : key q < key p <;> simp [h]

/-- `maxByKeyLast` on a non-empty list returns an element of the list that
attains the maximal key. -/
theorem maxByKeyLast_spec (key : PeerM → Nat) :
    ∀ l : List PeerM, l ≠ [] →
      ∃ p, maxByKeyLast key l = some p ∧ p ∈ l ∧ ∀ q ∈ l, key q ≤ key p := by
  intro l
  induction l with
  | nil => intro h; exact absurd rfl h
  | cons p ps ih =>
    intro _
    rcases hm : maxByKeyLast key ps with _ | q
    · have hps : ps = [] := by
        cases ps with
        | nil => rfl
        | cons a t =>
          have hs := maxByKeyLast_isSome key a t
          rw [hm] at hs
          simp at hs
      subst hps
      refine ⟨p, by simp [maxByKeyLast], by simp, ?_⟩
      intro q hq
      simp at hq
      rw [hq]
    · have hps : ps ≠ [] := by
        intro hnil
        rw [hnil] at hm
        simp [maxByKeyLast] at hm
      obtain ⟨mx, hm2, hmem, hmax⟩ := ih hps
      rw [hm] at hm2
      have hqm : q = mx := Option.some.inj hm2
      subst hqm
      by_cases hlt : key q < key p
      · refine ⟨p, ?_, by simp, ?_⟩
        · simp [maxByKeyLast, hm, hlt]
        · intro r hr
          rcases List.mem_cons.mp hr with hr | hr
          · rw [hr]
          · exact le_trans (hmax r hr) (le_of_lt hlt)
      · refine ⟨q, ?_, by simp [hmem], ?_⟩
        · simp [maxByKeyLast, hm, hlt]
        · intro r hr
          rcases List.mem_cons.mp hr with hr | hr
          · rw [hr]; exact le_of_not_lt hlt
          · exact hmax r hr

theorem mkWindowAux_length (t0 i : Nat) :
    ∀ (d : List Nat) (k : Nat), (mkWindowAux t0 i k d).length = d.length := by
  intro d
  induction d with
  | nil => intro k; rfl
  | cons dj rest ih => intro k; simp [mkWindowAux, ih]

theorem mkWindowAux_map_difficulty (t0 i : Nat) :
    ∀ (d : List Nat) (k : Nat),
      (mkWindowAux t0 i k d).map HeaderDifficultyInfo.difficulty = d := by
  intro d
  induction d with
  | nil => intro k; rfl
  | cons dj rest ih => intro k; simp [mkWindowAux, ih]

theorem mkWindowAux_head? (t0 i k : Nat) (d0 : Nat) (rest : List Nat) :
    (mkWindowAux t0 i k (d0 :: rest)).head? =
      some { timestamp := t0 + k * i, difficulty := d0 } := by
  simp [mkWindowAux]

theorem mkWindowAux_getLast?_ts (t0 i : Nat) :
    ∀ (d : List Nat) (k : Nat), d ≠ [] →
      ((mkWindowAux t0 i k d).getLast?).map HeaderDifficultyInfo.timestamp =
        some (t0 + (k - (d.length - 1)) * i) := by
  intro d
  induction d with
  | nil => intro k h; exact absurd rfl h
  | cons dj rest ih =>
    intro k _
    cases rest with
    | nil => simp [mkWindowAux]
    | cons y t =>
      have hne : (y :: t) ≠ [] := by simp
      have step : (mkWindowAux t0 i k (dj :: y :: t)).getLast? =
          (mkWindowAux t0 i (k - 1) (y :: t)).getLast? := by
        simp [mkWindowAux, List.getLast?_cons_cons]
      rw [step, ih (k - 1) hne]
      have harith : k - 1 - ((y :: t).length - 1) = k - ((dj :: y :: t).length - 1) := by
        simp only [List.length_cons]
        omega
      rw [harith]

theorem difficulty_data_to_vector_full (w : List HeaderDifficultyInfo)
    (h : w.length = DIFFICULTY_ADJUST_WINDOW + 1) :
    difficulty_data_to_vector w = w.reverse := by
  rcases w with _ | ⟨a, t⟩
  · simp at h
  · unfold difficulty_data_to_vector
    have htake : (a :: t).take (DIFFICULTY_ADJUST_WINDOW + 1) = a :: t := by
      apply List.take_of_length_le
      exact Nat.le_of_eq h
    simp only [htake, h, Nat.sub_self, List.range_zero, List.map_nil, List.head?_cons,
      List.append_nil]

/-- For a full window (exactly `DIFFICULTY_ADJUST_WINDOW + 1` entries) built
with a constant inter-block interval, `next_difficulty` reduces to the damped
and clamped ratio formula, with the window timespan
`DIFFICULTY_ADJUST_WINDOW * interval`. -/
theorem next_difficulty_mkWindow (t0 i : Nat) (d : List Nat)
    (h : d.length = DIFFICULTY_ADJUST_WINDOW + 1) :
    next_difficulty (mkWindow t0 i d) =
      max MIN_DIFFICULTY
        (((d.reverse.drop 1).sum * BLOCK_TIME_SEC) /
          clamp (damp (DIFFICULTY_ADJUST_WINDOW * i) BLOCK_TIME_WINDOW
            DIFFICULTY_DAMP_FACTOR) BLOCK_TIME_WINDOW CLAMP_FACTOR) := by
  have hne : d ≠ [] := by
    intro hnil; rw [hnil] at h; simp at h
  have hwlen : (mkWindow t0 i d).length = DIFFICULTY_ADJUST_WINDOW + 1 := by
    rw [mkWindow, mkWindowAux_length, h]
  rcases d with _ | ⟨d0, rest⟩
  · exact absurd rfl hne
  · have hk : (d0 :: rest).length - 1 = DIFFICULTY_ADJUST_WINDOW := by
      rw [h]; rfl
    have hhead : (mkWindow t0 i (d0 :: rest)).head? =
        some { timestamp := t0 + DIFFICULTY_ADJUST_WINDOW * i, difficulty := d0 } := by
      rw [mkWindow, hk, mkWindowAux_head?]
    rcases hget : (mkWindow t0 i (d0 :: rest)).getLast? with _ | lastE
    · have : (mkWindow t0 i (d0 :: rest)) = [] := List.getLast?_eq_none_iff.mp hget
      rw [this] at hwlen
      simp at hwlen
    · have hlast : ((mkWindow t0 i (d0 :: rest)).getLast?).map
          HeaderDifficultyInfo.timestamp = some t0 := by
        rw [mkWindow, hk,
          mkWindowAux_getLast?_ts t0 i (d0 :: rest) DIFFICULTY_ADJUST_WINDOW (by simp)]
        rw [hk, Nat.sub_self, Nat.zero_mul, Nat.add_zero]
      rw [hget] at hlast
      have hts : lastE.timestamp = t0 := by
        simpa using hlast
      unfold next_difficulty
      rw [difficulty_data_to_vector_full _ hwlen]
      simp only [List.getLast?_reverse, List.head?_reverse, hget, hhead, hts,
        List.map_drop, List.map_reverse]
      rw [mkWindow, mkWindowAux_map_difficulty]
      have hdelta : t0 + DIFFICULTY_ADJUST_WINDOW * i - t0 = DIFFICULTY_ADJUST_WINDOW * i := by
        omega
      rw [hdelta]

/-- `damp` is monotone in its first argument. -/
theorem damp_mono {a b : Nat} (g f : Nat) (h : a ≤ b) : damp a g f ≤ damp b g f :=
  Nat.div_le_div_right (Nat.add_le_add_right h _)

/-- `clamp` is monotone in its first argument. -/
theorem clamp_mono {a b : Nat} (g f : Nat) (h : a ≤ b) :
    clamp a g f ≤ clamp b g f :=
  max_le_max (le_refl _) (min_le_min h (le_refl _))

/-- `clamp` is bounded below by the lower clamp bound. -/
theorem clamp_lower (a g f : Nat) : g / f ≤ clamp a g f :=
  le_max_left _ _

/-! ## Theorems for the claims -/

/-- **C2.** For an input vector containing exactly one `HeaderDifficultyInfo`
entry with timestamp 42 and difficulty 10000, `next_difficulty` returns
exactly 14913 (the value `Difficulty::from_num(14913)` asserted by
`core/tests/consensus_automated.rs`). -/
theorem c2_single_sample_retarget :
    next_difficulty [{ timestamp := 42, difficulty := 10000 }] = 14913 := by
  decide

/-- **C3.** `next_difficulty` is monotone in the average block interval: for
two constant-interval windows of `DIFFICULTY_ADJUST_WINDOW + 1` entries with
the same difficulties, the slower window never yields a higher next
difficulty than the faster one, for window timespans within the claim's
bounds `[DIFFICULTY_ADJUST_WINDOW * BLOCK_TIME_SEC / 4,
DIFFICULTY_ADJUST_WINDOW * BLOCK_TIME_SEC * 4]`. -/
theorem c3_retarget_monotone (t0 i1 i2 : Nat) (diffs : List Nat)
    (hlen : diffs.length = DIFFICULTY_ADJUST_WINDOW + 1)
    (h12 : i1 ≤ i2)
    (hlo : DIFFICULTY_ADJUST_WINDOW * BLOCK_TIME_SEC / 4 ≤
      DIFFICULTY_ADJUST_WINDOW * i1)
    (hhi : DIFFICULTY_ADJUST_WINDOW * i2 ≤
      DIFFICULTY_ADJUST_WINDOW * BLOCK_TIME_SEC * 4) :
    next_difficulty (mkWindow t0 i2 diffs) ≤ next_difficulty (mkWindow t0 i1 diffs) := by
  rw [next_difficulty_mkWindow t0 i1 diffs hlen, next_difficulty_mkWindow t0 i2 diffs hlen]
  apply max_le_max (le_refl _)
  apply Nat.div_le_div_left
  · apply clamp_mono
    apply damp_mono
    exact Nat.mul_le_mul_left _ h12
  · calc 0 < BLOCK_TIME_WINDOW / CLAMP_FACTOR := by decide
      _ ≤ _ := clamp_lower _ _ _

/-- Witness for C3 at a concrete input: difficulties all 1000, intervals 60
and 90 seconds (the repository test's "right interval" and "too slow"
scenarios). -/
theorem c3_retarget_monotone_witness :
    next_difficulty (mkWindow 1000 90 (List.replicate 61 1000)) ≤
      next_difficulty (mkWindow 1000 60 (List.replicate 61 1000)) :=
  c3_retarget_monotone 1000 60 90 (List.replicate 61 1000) (by decide) (by decide)
    (by decide) (by decide)

/-- **C8.** `update_sync_status` renders `SyncStatus::BodySync` as the
percentage `(current - archive) * 100 / (highest - archive)` with saturating
subtraction (stated under the hypothesis that the `u64` product does not
overflow), and renders 0% whenever the denominator is zero. -/
theorem c8_body_sync_percent (archive current highest : Nat)
    (hno : (current - archive) * 100 < 18446744073709551616) :
    (highest - archive = 0 →
      update_sync_status (.BodySync archive current highest) =
        "Sync step 7/7: Downloading blocks: 0%") ∧
    update_sync_status (.BodySync archive current highest) =
      "Sync step 7/7: Downloading blocks: " ++
        toString ((current - archive) * 100 / (highest - archive)) ++ "%" := by
  have hmain : update_sync_status (.BodySync archive current highest) =
      "Sync step 7/7: Downloading blocks: " ++
        toString ((current - archive) * 100 / (highest - archive)) ++ "%" := by
    by_cases h : highest - archive = 0
    · simp [update_sync_status, h, Nat.div_zero]
    · simp [update_sync_status, h, w64, Nat.mod_eq_of_lt hno]
  refine ⟨fun h => ?_, hmain⟩
  rw [hmain, h, Nat.div_zero]
  rfl

/-- Witness for C8 at archive 100, current 150, highest 200 (50%), with the
no-overflow hypothesis discharged by computation. -/
theorem c8_body_sync_percent_witness :
    ((200 : Nat) - 100 = 0 →
      update_sync_status (.BodySync 100 150 200) =
        "Sync step 7/7: Downloading blocks: 0%") ∧
    update_sync_status (.BodySync 100 150 200) =
      "Sync step 7/7: Downloading blocks: " ++
        toString ((150 - 100) * 100 / (200 - 100)) ++ "%" :=
  c8_body_sync_percent 100 150 200 (by decide)

/-- A tick whose effects show the body stage ran cannot have come from the
cached-response shortcut, so it is the staged tick on an empty cache. -/
theorem managerRequest_ranBody_eq (e : ManagerEnv) (m : ManagerS)
    (h : (managerRequest e m).2.2.ranBody = true) :
    managerRequest e m = managerRequestMain e ⟨none⟩ := by
  obtain ⟨mc⟩ := m
  rcases mc with _ | c
  · rfl
  · by_cases hex : c.created + 180 < e.now
    · simp [managerRequest, hex]
    · simp [managerRequest, hex, noEffects] at h

/-- `managerRequestMain` answers `SyncDone` exactly when the body stage ran,
body sync answered `BodyReady`, and header sync answered `HeadersReady`. -/
theorem managerRequestMain_done_iff (e : ManagerEnv) (m : ManagerS) :
    (managerRequestMain e m).1.response = .SyncDone ↔
      ((managerRequestMain e m).2.2.ranBody = true ∧
        (∃ r, e.bodyResp = .ok r ∧ r.response = .BodyReady) ∧
        e.headersResp.response = .HeadersReady) := by
  rcases hbr : e.bodyResp with br | _ | _
  all_goals
    unfold managerRequestMain
  all_goals
    simp only [hbr]
  all_goals
    split_ifs with h0 h1 h2 h3 h4 h5 h6 h7 h8
  all_goals
    try rcases h1 with h1 | h1
  all_goals
    try rcases h3 with h3 | h3
  all_goals
    try rcases h4 with h4 | h4 | h4
  all_goals
    simp_all [noEffects, respDone]

/-- When `managerRequestMain` answers `SyncDone`, the answer is the literal
`DONE!` response and it is stored in the cache stamped with the current
time. -/
theorem managerRequestMain_done_cache (e : ManagerEnv) (m : ManagerS) :
    (managerRequestMain e m).1.response ≠ .SyncDone ∨
      ((managerRequestMain e m).1 = respDone ∧
        (managerRequestMain e m).2.1.cached_response =
          some ⟨(managerRequestMain e m).1, e.now⟩) := by
  rcases hbr : e.bodyResp with br | _ | _
  all_goals
    unfold managerRequestMain
  all_goals
    simp only [hbr]
  all_goals
    split_ifs with h0 h1 h2 h3 h4 h5 h6 h7 h8
  all_goals
    try rcases h1 with h1 | h1
  all_goals
    try rcases h3 with h3 | h3
  all_goals
    try rcases h4 with h4 | h4 | h4
  all_goals
    simp_all [noEffects, respDone]

/-- When the body stage ran and answered `BadState`, `managerRequestMain`
returns that response and resets the PIBD desegmenter data. -/
theorem managerRequestMain_badstate (e : ManagerEnv) (m : ManagerS) (r : SyncResponse)
    (hbody : e.bodyResp = .ok r) (hr : r.response = .BadState) :
    (managerRequestMain e m).2.2.ranBody = false ∨
      ((managerRequestMain e m).1 = r ∧
        (managerRequestMain e m).2.2.resetDesegmenter = true) := by
  unfold managerRequestMain
  simp only [hbody]
  split_ifs with h0 h1 h2 h3 h4 h5 h6 h7 h8
  all_goals
    try rcases h1 with h1 | h1
  all_goals
    try rcases h3 with h3 | h3
  all_goals
    try rcases h4 with h4 | h4 | h4
  all_goals
    simp_all [noEffects]

/-- **C1, counterexample.** The claim says `best_height` is the maximum
`live_info.height` among outbound-connected peers with positive height.  It
is not: with two outbound peers — height 10 at total difficulty 50, and
height 5 at total difficulty 100 — the code keys `max_by_key` on total
difficulty and reports height 5, while the claimed maximum height is 10. -/
theorem c1_counterexample :
    bestHeightOf [⟨0, true, 10, 50⟩, ⟨1, true, 5, 100⟩] ≠
      claimBestHeight [⟨0, true, 10, 50⟩, ⟨1, true, 5, 100⟩] := by
  decide

/-- **C1, amended.** `best_height` is the `live_info.height` of the
connected outbound peer chosen by `max_by_key` with key `total_difficulty`
(0 for peers reporting height 0) — a peer attaining the maximal key — and
only when no outbound peer is connected at all does the same selection run
over all connected peers; if the resulting `best_height` is 0, `request`
returns `WaitingForPeers` without consulting any syncer. -/
theorem c1_best_height_amended (peers : List PeerM) (e : ManagerEnv) (m : ManagerS) :
    (peers.filter (fun p => p.is_outbound) ≠ [] →
      ∃ p ∈ peers.filter (fun p => p.is_outbound),
        bestHeightOf peers = p.height ∧
        ∀ q ∈ peers.filter (fun p => p.is_outbound), peerKey q ≤ peerKey p) ∧
    (peers.filter (fun p => p.is_outbound) = [] → peers ≠ [] →
      ∃ p ∈ peers, bestHeightOf peers = p.height ∧
        ∀ q ∈ peers, peerKey q ≤ peerKey p) ∧
    (m.cached_response = none → bestHeightOf e.peers = 0 →
      managerRequest e m =
        (⟨.WaitingForPeers, CAP_UNKNOWN, "Peers height is 0"⟩, m, noEffects)) := by
  refine ⟨?_, ?_, ?_⟩
  · intro hne
    obtain ⟨p, hm, hmem, hmax⟩ := maxByKeyLast_spec peerKey _ hne
    exact ⟨p, hmem, by simp [bestHeightOf, hm], hmax⟩
  · intro hout hne
    have hnone : maxByKeyLast peerKey (peers.filter (fun p => p.is_outbound)) = none := by
      rw [hout]; rfl
    obtain ⟨p, hm, hmem, hmax⟩ := maxByKeyLast_spec peerKey peers hne
    exact ⟨p, hmem, by simp [bestHeightOf, hnone, hm], hmax⟩
  · intro hc hb
    simp [managerRequest, hc, managerRequestMain, hb]

/-- Witness for C1 (amended) at a concrete input: one outbound peer of
height 3 yields `best_height = 3`, and a manager tick with no peers at all
returns `WaitingForPeers` with no collaborator calls. -/
theorem c1_best_height_amended_witness :
    bestHeightOf peersW = 3 ∧
      managerRequest envNoPeers managerW =
        (⟨.WaitingForPeers, CAP_UNKNOWN, "Peers height is 0"⟩, managerW, noEffects) := by
  constructor
  · obtain ⟨p, hp, hbh, hmax⟩ :=
      (c1_best_height_amended peersW envNoPeers managerW).1 (by decide)
    have hp3 : p = ⟨0, true, 3, 7⟩ := by
      simpa [peersW] using hp
    rw [hbh, hp3]
  · exact (c1_best_height_amended peersW envNoPeers managerW).2.2 rfl (by decide)

/-- **C5.** With no valid cached response, `SyncManager::request` returns
`SyncDone` exactly when the body stage ran and reported `BodyReady` in the
same tick in which header sync reported `HeadersReady`; that `SyncDone`
response is cached stamped with the current time; and a call finding a cached
response at most 180 seconds old returns it unchanged without running any
sync stage. -/
theorem c5_sync_done_cached (e : ManagerEnv) (m mc : ManagerS)
    (r0 : SyncResponse) (t0 : Nat) :
    (m.cached_response = none →
      ((managerRequest e m).1.response = .SyncDone ↔
        ((managerRequest e m).2.2.ranBody = true ∧
          (∃ r, e.bodyResp = .ok r ∧ r.response = .BodyReady) ∧
          e.headersResp.response = .HeadersReady))) ∧
    (m.cached_response = none → (managerRequest e m).1.response = .SyncDone →
      (managerRequest e m).1 = respDone ∧
      (managerRequest e m).2.1.cached_response =
        some ⟨(managerRequest e m).1, e.now⟩) ∧
    (mc.cached_response = some ⟨r0, t0⟩ → e.now ≤ t0 + 180 →
      managerRequest e mc = (r0, mc, noEffects)) := by
  have hm : m.cached_response = none → managerRequest e m = managerRequestMain e m := by
    intro h
    simp [managerRequest, h]
  refine ⟨?_, ?_, ?_⟩
  · intro hc
    rw [hm hc]
    exact managerRequestMain_done_iff e m
  · intro hc hd
    rw [hm hc] at hd ⊢
    rcases managerRequestMain_done_cache e m with hno | hyes
    · exact absurd hd hno
    · exact hyes
  · intro hc hle
    have hnx : ¬ (t0 + 180 < e.now) := by omega
    simp [managerRequest, hc, hnx]

/-- Witness for C5: in `envDone` all stages are ready, so the tick returns
the `DONE!` response and caches it at time 5, and a later tick at time 5 on
the cached manager returns the cache untouched with no stage run. -/
theorem c5_sync_done_cached_witness :
    (managerRequest envDone managerW).1 = respDone ∧
    (managerRequest envDone managerW).2.1.cached_response =
      some ⟨(managerRequest envDone managerW).1, envDone.now⟩ ∧
    managerRequest envDone managerCached = (respDone, managerCached, noEffects) := by
  obtain ⟨h1, h2⟩ :=
    (c5_sync_done_cached envDone managerW managerCached respDone 5).2.1 rfl (by decide)
  exact ⟨h1, h2,
    (c5_sync_done_cached envDone managerW managerCached respDone 5).2.2 rfl (by decide)⟩

/-- **C4.** When the chain is not in archive mode, the chain head differs
from the header head, and the fork point is strictly below the archive
height for `best_height`, `BodySync::request` returns `BadState` leaving all
state untouched; and when the manager's body stage ran and answered
`BadState`, the manager resets the PIBD desegmenter data and returns that
response. -/
theorem c4_bad_state_resets (env : BodyEnv) (s : BodySyncS) (sp : SyncPeers)
    (bh : Nat) (e : ManagerEnv) (m : ManagerS) (r : SyncResponse)
    (hhead : env.chain.head.last_block_h ≠ env.chain.header_head.last_block_h)
    (harch : env.chain.archive_mode = false)
    (hfork : env.chain.fork_point.height < env.h2a bh)
    (hrun : (managerRequest e m).2.2.ranBody = true)
    (hbody : e.bodyResp = .ok r) (hr : r.response = .BadState) :
    bodySyncRequest env s sp bh = .ok ⟨.BadState, s, sp, [], []⟩ ∧
      (managerRequest e m).1 = r ∧
      (managerRequest e m).2.2.resetDesegmenter = true := by
  have heq := managerRequest_ranBody_eq e m hrun
  rw [heq] at hrun ⊢
  rcases managerRequestMain_badstate e ⟨none⟩ r hbody hr with hno | hyes
  · rw [hno] at hrun
    simp at hrun
  · refine ⟨?_, hyes.1, hyes.2⟩
    simp [bodySyncRequest, hhead, bodyRequestMain, harch, hfork]

/-- Witness for C4: over `chainBad` (fork height 3, archive height 7) body
sync answers `BadState` untouched, and the manager tick in `envBadState`
forwards it and resets the desegmenter. -/
theorem c4_bad_state_resets_witness :
    bodySyncRequest envBad sW spW 7 = .ok ⟨.BadState, sW, spW, [], []⟩ ∧
      (managerRequest envBadState managerW).1 = ⟨.BadState, 0, "behind horizon"⟩ ∧
      (managerRequest envBadState managerW).2.2.resetDesegmenter = true :=
  c4_bad_state_resets envBad sW spW 7 envBadState managerW
    ⟨.BadState, 0, "behind horizon"⟩ (by decide) rfl (by decide) (by decide) rfl rfl

/-- With a non-empty peer slice, `send_requests` never takes its panic
branch. -/
theorem sendRequestsLoop_ne_none (env : BodyEnv) (peers : List Nat)
    (hne : peers ≠ []) :
    ∀ (items : List (Nat × Nat)) (st : SendSt),
      sendRequestsLoop env peers items st ≠ none := by
  intro items
  induction items with
  | nil =>
    intro st h
    simp [sendRequestsLoop] at h
  | cons it rest ih =>
    intro st h
    rcases it with ⟨hash, height⟩
    simp only [sendRequestsLoop] at h
    split at h
    · split at h
      · rename_i hcp
        unfold choosePeer at hcp
        rw [List.get?_eq_none] at hcp
        have hpos : 0 < peers.length := List.length_pos.mpr hne
        have hlt : env.rng st.rngIdx % peers.length < peers.length :=
          Nat.mod_lt _ hpos
        omega
      · split at h
        · split at h
          · simp at h
          · exact ih _ h
        · exact ih _ h
    · exact ih _ h

/-- Every `ok` outcome of the main body-sync tick carries `BadState`,
`WaitingForPeers` or `Syncing` — never `BodyReady`. -/
theorem bodyRequestMain_resp (env : BodyEnv) (s : BodySyncS) (sp : SyncPeers)
    (bh : Nat) (out : BodyOut) (h : bodyRequestMain env s sp bh = .ok out) :
    out.resp = .BadState ∨ out.resp = .WaitingForPeers ∨ out.resp = .Syncing := by
  simp only [bodyRequestMain] at h
  repeat' split at h
  all_goals try simp_all
  all_goals (subst h; simp)

/-- **C6.** `BodySync::request` returns `BodyReady` precisely when the chain
head and header head agree on the last block hash, and in that case it
returns immediately with the syncer state, peer ledgers, status updates and
sends all untouched. -/
theorem c6_body_ready (env : BodyEnv) (s : BodySyncS) (sp : SyncPeers) (bh : Nat) :
    (env.chain.head.last_block_h = env.chain.header_head.last_block_h →
      bodySyncRequest env s sp bh = .ok ⟨.BodyReady, s, sp, [], []⟩) ∧
    (∀ out, bodySyncRequest env s sp bh = .ok out → out.resp = .BodyReady →
      env.chain.head.last_block_h = env.chain.header_head.last_block_h) := by
  constructor
  · intro h
    simp [bodySyncRequest, h]
  · intro out hout hresp
    by_contra hne
    unfold bodySyncRequest at hout
    rw [if_neg hne] at hout
    rcases bodyRequestMain_resp env s sp bh out hout with h | h | h <;>
      rw [hresp] at h <;> simp at h

/-- Witness for C6: over `chainEq` (head = header head) body sync returns
`BodyReady` and changes nothing. -/
theorem c6_body_ready_witness :
    bodySyncRequest envEq sW spW 7 = .ok ⟨.BodyReady, sW, spW, [], []⟩ :=
  (c6_body_ready envEq sW spW 7).1 rfl

/-- The main body-sync tick never panics: each of its two `send_requests`
calls happens only behind the non-empty-peers check. -/
theorem bodyRequestMain_no_panic (env : BodyEnv) (s : BodySyncS) (sp : SyncPeers)
    (bh : Nat) : (bodyRequestMain env s sp bh).isPanic = false := by
  simp only [bodyRequestMain]
  repeat' split
  all_goals
    first
      | rfl
      | (rename_i heq
         exact absurd heq (sendRequestsLoop_ne_none _ _ (by assumption) _ _))

/-- `recieve_block_reporting` never panics: its opportunistic refill calls
`send_requests` only behind the non-empty-peers check. -/
theorem recieveBlockReporting_isSome (env : BodyEnv) (s : BodySyncS)
    (sp : SyncPeers) (accepted : Bool) (bhash peer : Nat) :
    (recieveBlockReporting env s sp accepted bhash peer).isSome = true := by
  simp only [recieveBlockReporting]
  repeat' split
  all_goals
    first
      | rfl
      | (rename_i heq
         exact absurd heq (sendRequestsLoop_ne_none _ _ (by assumption) _ _))

/-- **C10.** `BodySync::send_requests` unwraps `peers.choose(rng)`, which
panics on an empty peer slice; but both callers reach it only behind a
non-empty-peers check, so neither `BodySync::request` nor
`BodySync::recieve_block_reporting` can ever hit the panic branch. -/
theorem c10_choose_never_panics :
    (∀ (env : BodyEnv) (s : BodySyncS) (sp : SyncPeers) (bh : Nat),
      (bodySyncRequest env s sp bh).isPanic = false) ∧
    (∀ (env : BodyEnv) (s : BodySyncS) (sp : SyncPeers) (accepted : Bool)
        (bhash peer : Nat),
      (recieveBlockReporting env s sp accepted bhash peer).isSome = true) := by
  constructor
  · intro env s sp bh
    unfold bodySyncRequest
    split
    · rfl
    · exact bodyRequestMain_no_panic env s sp bh
  · intro env s sp accepted bhash peer
    exact recieveBlockReporting_isSome env s sp accepted bhash peer

/-- Witness for C10 at concrete inputs. -/
theorem c10_choose_never_panics_witness :
    (bodySyncRequest envBad sW spW 7).isPanic = false ∧
    (recieveBlockReporting envBad sTracked spW true 1 2).isSome = true :=
  ⟨c10_choose_never_panics.1 envBad sW spW 7,
   c10_choose_never_panics.2 envBad sTracked spW true 1 2⟩

/-- `get_header_by_height` returns a header at the requested height. -/
theorem header_by_height_height (c : ChainO) (n : Nat) (hd : HeaderC)
    (h : c.header_by_height n = some hd) : hd.height = n := by
  unfold ChainO.header_by_height at h
  rcases hh : c.header_hash_at n with _ | hs
  · rw [hh] at h
    simp at h
  · rw [hh] at h
    simp at h
    rw [← h]

/-- Every entry collected by the series walk lies strictly between the fork
point and the walk's starting height, is not an orphan, and the walk yields
at most one entry per height. -/
theorem seriesLoop_spec (c : ChainO) (forkH : Nat) :
    ∀ (fuel : Nat) (cur : HeaderC) (l : List (Nat × Nat)),
      seriesLoop c forkH fuel cur = some l →
      (∀ e ∈ l, forkH < e.2 ∧ e.2 ≤ cur.height ∧ c.is_orphan e.1 = false) ∧
      l.length ≤ cur.height - forkH := by
  intro fuel
  induction fuel with
  | zero =>
    intro cur l h
    unfold seriesLoop at h
    split at h
    · simp at h
    · simp at h
      subst h
      exact ⟨by simp, by simp⟩
  | succ fuel ih =>
    intro cur l h
    unfold seriesLoop at h
    split at h
    · rename_i hgt
      split at h
      · simp at h
      · rename_i prev hprev
        split at h
        · simp at h
        · rename_i rest hrest
          simp at h
          subst h
          have hprevh : prev.height = cur.height - 1 :=
            header_by_height_height c (cur.height - 1) prev hprev
          obtain ⟨ih1, ih2⟩ := ih prev rest hrest
          constructor
          · intro e he
            rcases List.mem_append.mp he with he | he
            · by_cases ho : c.is_orphan cur.hash
              · simp [ho] at he
              · simp [ho] at he
                subst he
                simp at ho
                exact ⟨hgt, le_refl _, ho⟩
            · obtain ⟨h1, h2, h3⟩ := ih1 e he
              refine ⟨h1, ?_, h3⟩
              rw [hprevh] at h2
              omega
          · rw [List.length_append]
            have hle : (if c.is_orphan cur.hash then ([] : List (Nat × Nat))
                else [(cur.hash, cur.height)]).length ≤ 1 := by
              split <;> simp
            rw [hprevh] at ih2
            omega
    · simp at h
      subst h
      exact ⟨by simp, by simp⟩

/-- `seriesRebuild` only emits entries strictly above the fork point, at most
500 blocks ahead of it, bounded by the header head, and never orphans. -/
theorem seriesRebuild_spec (env : BodyEnv) (forkH : Nat) (l : List (Nat × Nat))
    (h : seriesRebuild env forkH = some l) :
    (∀ e ∈ l, forkH < e.2 ∧
      e.2 ≤ min (forkH + 500) env.chain.header_head.height ∧
      env.chain.is_orphan e.1 = false) ∧
    l.length ≤ 500 := by
  simp only [seriesRebuild] at h
  split at h
  · simp at h
  · rename_i hdr hhdr
    have hh : hdr.height = min (forkH + 500) env.chain.header_head.height :=
      header_by_height_height _ _ _ hhdr
    obtain ⟨h1, h2⟩ := seriesLoop_spec env.chain forkH hdr.height hdr l h
    constructor
    · intro e he
      obtain ⟨a, b, c⟩ := h1 e he
      rw [hh] at b
      exact ⟨a, b, c⟩
    · rw [hh] at h2
      have hmin : min (forkH + 500) env.chain.header_head.height ≤ forkH + 500 :=
        min_le_left _ _
      omega

/-- **C9.** Whenever `BodySync::request` rebuilds `request_series`, every
entry `(hash, height)` afterwards satisfies `fork_point.height < height ≤
min(fork_point.height + 500, header_head.height)` and was not an orphan at
build time, so the series holds at most 500 entries; otherwise the series is
left untouched. -/
theorem c9_request_series (env : BodyEnv) (s : BodySyncS) (sp : SyncPeers)
    (bh : Nat) (out : BodyOut) (h : bodySyncRequest env s sp bh = .ok out) :
    out.state.request_series = s.request_series ∨
      ((∀ e ∈ out.state.request_series,
          env.chain.fork_point.height < e.2 ∧
          e.2 ≤ min (env.chain.fork_point.height + 500)
            env.chain.header_head.height ∧
          env.chain.is_orphan e.1 = false) ∧
        out.state.request_series.length ≤ 500) := by
  unfold bodySyncRequest at h
  split at h
  · left
    simp at h
    rw [← h]
  · simp only [bodyRequestMain] at h
    repeat' split at h
    all_goals try (simp at h; done)
    all_goals simp at h
    all_goals try (left; rw [← h]; done)
    all_goals
      right
      rw [← h]
      exact seriesRebuild_spec env _ _ (by assumption)

/-- Witness for C9: one full tick over `envRun` rebuilds the series to the
six headers between the fork point (height 3) and the header head
(height 9). -/
theorem c9_request_series_witness : outRun.state.request_series.length ≤ 500 := by
  rcases c9_request_series envRun sW spW 7 outRun (by rfl) with h | h
  · rw [h]
    simp [sW]
  · exact h.2

theorem report_error_errs_mem (sp : SyncPeers) (p : Nat) (msg m2 : String)
    (q : Nat) (h : m2 ∈ sp.errs q) :
    m2 ∈ (sp.report_error_response p msg).errs q := by
  by_cases hq : q = p
  · subst hq
    simp [SyncPeers.report_error_response, h]
  · simp [SyncPeers.report_error_response, hq, h]

theorem report_error_errs_self (sp : SyncPeers) (p : Nat) (msg : String) :
    msg ∈ (sp.report_error_response p msg).errs p := by
  simp [SyncPeers.report_error_response]

/-- After `remove_request`, the key is no longer tracked. -/
theorem remove_request_has (t : RequestTracker) (k : Nat) :
    (t.remove_request k).2.has_request k = false := by
  unfold RequestTracker.remove_request
  split
  · simp only [RequestTracker.has_request]
    rw [List.any_eq_false]
    intro x hx
    rw [List.mem_filter] at hx
    simpa using hx.2
  · rename_i hnone
    simp only [RequestTracker.has_request]
    rw [List.any_eq_false]
    intro x hx
    have := List.find?_eq_none.mp hnone x hx
    simpa using this

/-- A key tracked after `register_request` was tracked before or is the
registered key. -/
theorem register_request_has (t : RequestTracker) (kr p : Nat) (lbl : String)
    (now k : Nat) (h : (t.register_request kr p lbl now).has_request k = true) :
    t.has_request k = true ∨ k = kr := by
  unfold RequestTracker.register_request at h
  split at h
  · exact Or.inl h
  · unfold RequestTracker.has_request at h ⊢
    rw [List.any_append] at h
    rcases Bool.or_eq_true_iff.mp h with h | h
    · exact Or.inl h
    · right
      simp at h
      omega

theorem sendsHas_of_mem (sends : List (Nat × Nat)) (k q : Nat)
    (h : (k, q) ∈ sends) : sendsHas sends k = true := by
  rw [sendsHas, List.any_eq_true]
  exact ⟨(k, q), h, by simp⟩

/-- `send_requests` never reports an ok, so ok counters pass through it
unchanged. -/
theorem sendRequestsLoop_ok (env : BodyEnv) (peers : List Nat) :
    ∀ (items : List (Nat × Nat)) (st res : SendSt),
      sendRequestsLoop env peers items st = some res →
      ∀ q, res.speers.ok q = st.speers.ok q := by
  intro items
  induction items with
  | nil =>
    intro st res h q
    simp [sendRequestsLoop] at h
    rw [← h]
  | cons it rest ih =>
    intro st res h q
    rcases it with ⟨hash, height⟩
    simp only [sendRequestsLoop] at h
    split at h
    · split at h
      · simp at h
      · split at h
        · split at h
          · simp at h
            rw [← h]
          · exact ih _ _ h q
        · exact ih _ _ h q
    · exact ih _ _ h q

/-- `send_requests` only ever adds error messages, so recorded messages
survive it. -/
theorem sendRequestsLoop_errs (env : BodyEnv) (peers : List Nat) :
    ∀ (items : List (Nat × Nat)) (st res : SendSt),
      sendRequestsLoop env peers items st = some res →
      ∀ (q : Nat) (msg : String), msg ∈ st.speers.errs q → msg ∈ res.speers.errs q := by
  intro items
  induction items with
  | nil =>
    intro st res h q msg hm
    simp [sendRequestsLoop] at h
    rw [← h]
    exact hm
  | cons it rest ih =>
    intro st res h q msg hm
    rcases it with ⟨hash, height⟩
    simp only [sendRequestsLoop] at h
    split at h
    · split at h
      · simp at h
      · split at h
        · split at h
          · simp at h
            rw [← h]
            exact hm
          · exact ih _ _ h q msg hm
        · exact ih _ _ h q msg (report_error_errs_mem _ _ _ _ _ hm)
    · exact ih _ _ h q msg hm

/-- `send_requests` only appends to the sends log. -/
theorem sendRequestsLoop_sends (env : BodyEnv) (peers : List Nat) :
    ∀ (items : List (Nat × Nat)) (st res : SendSt),
      sendRequestsLoop env peers items st = some res →
      ∀ x, x ∈ st.sends → x ∈ res.sends := by
  intro items
  induction items with
  | nil =>
    intro st res h x hx
    simp [sendRequestsLoop] at h
    rw [← h]
    exact hx
  | cons it rest ih =>
    intro st res h x hx
    rcases it with ⟨hash, height⟩
    simp only [sendRequestsLoop] at h
    split at h
    · split at h
      · simp at h
      · split at h
        · split at h
          · simp at h
            rw [← h]
            exact List.mem_append_left _ hx
          · exact ih _ _ h x (List.mem_append_left _ hx)
        · exact ih _ _ h x hx
    · exact ih _ _ h x hx

/-- A key tracked after `send_requests` was tracked before or was requested
by it (and so appears in the sends log). -/
theorem sendRequestsLoop_has (env : BodyEnv) (peers : List Nat) :
    ∀ (items : List (Nat × Nat)) (st res : SendSt),
      sendRequestsLoop env peers items st = some res →
      ∀ k, res.tracker.has_request k = true →
        st.tracker.has_request k = true ∨ sendsHas res.sends k = true := by
  intro items
  induction items with
  | nil =>
    intro st res h k hk
    simp [sendRequestsLoop] at h
    rw [← h] at hk
    exact Or.inl hk
  | cons it rest ih =>
    intro st res h k hk
    rcases it with ⟨hash, height⟩
    simp only [sendRequestsLoop] at h
    split at h
    · split at h
      · simp at h
      · rename_i pa hpa
        split at h
        · split at h
          · simp at h
            rw [← h] at hk
            rcases register_request_has _ _ _ _ _ _ hk with hold | hnew
            · exact Or.inl hold
            · right
              rw [← h]
              exact sendsHas_of_mem _ _ pa
                (List.mem_append_right _ (by rw [hnew]; exact List.mem_singleton_self _))
          · rcases ih _ _ h k hk with hmid | hsend
            · rcases register_request_has _ _ _ _ _ _ hmid with hold | hnew
              · exact Or.inl hold
              · right
                refine sendsHas_of_mem _ _ pa (sendRequestsLoop_sends env peers _ _ _ h _ ?_)
                exact List.mem_append_right _ (by rw [hnew]; exact List.mem_singleton_self _)
            · exact Or.inr hsend
        · exact ih _ _ h k hk
    · exact ih _ _ h k hk

/-- The reporting step leaves the syncer state unchanged except that the
reported hash's request record is removed. -/
theorem blockReportCore_state (s : BodySyncS) (sp : SyncPeers) (accepted : Bool)
    (bhash peer : Nat) :
    (blockReportCore s sp accepted bhash peer).1 =
      { s with request_tracker := (s.request_tracker.remove_request bhash).2 } := rfl

/-- The reporting step credits exactly one ok, to the reporter, exactly when
the block was accepted and the removed record named the reporter. -/
theorem blockReportCore_ok (s : BodySyncS) (sp : SyncPeers) (accepted : Bool)
    (bhash peer q : Nat) :
    (blockReportCore s sp accepted bhash peer).2.ok q =
      sp.ok q + (if accepted = true ∧ q = peer ∧
        (s.request_tracker.remove_request bhash).1 = some peer then 1 else 0) := by
  rcases hrem : (s.request_tracker.remove_request bhash).1 with _ | padr
  · simp only [blockReportCore, hrem]
    cases accepted <;> simp [SyncPeers.report_error_response]
  · cases accepted with
    | false =>
      simp only [blockReportCore, hrem]
      simp [SyncPeers.report_error_response]
    | true =>
      by_cases hpp : padr = peer
      · subst hpp
        simp only [blockReportCore, hrem]
        by_cases hq : q = padr <;> simp [SyncPeers.report_ok_response, hq]
      · simp only [blockReportCore, hrem]
        simp [hpp]

/-- A rejected block always charges the reporter the bad-block message. -/
theorem blockReportCore_errs (s : BodySyncS) (sp : SyncPeers) (bhash peer : Nat) :
    ("Get bad block " ++ toString bhash ++ " for peer " ++ toString peer) ∈
      (blockReportCore s sp false bhash peer).2.errs peer := by
  rcases hrem : (s.request_tracker.remove_request bhash).1 with _ | padr <;>
    simp only [blockReportCore, hrem] <;>
    simp [report_error_errs_self]

/-- **C7.** For every call to `recieve_block_reporting(accepted, block_hash,
peer, …)`: the reported hash is removed from the tracker (it can only be
tracked afterwards if the opportunistic refill re-requested it, in which case
it appears in the sends log); an ok is credited, to the reporter, exactly
when `accepted` holds and the tracked record named the reporter; and whenever
`accepted` is false the reporter is charged an error with message
`"Get bad block {hash} for peer {peer}"`, tracked or not. -/
theorem c7_block_reporting (env : BodyEnv) (s : BodySyncS) (sp : SyncPeers)
    (accepted : Bool) (bhash peer : Nat)
    (out : BodySyncS × SyncPeers × List (Nat × Nat))
    (h : recieveBlockReporting env s sp accepted bhash peer = some out) :
    (out.1.request_tracker.has_request bhash = false ∨
      sendsHas out.2.2 bhash = true) ∧
    (∀ q, out.2.1.ok q = sp.ok q +
      (if accepted = true ∧ q = peer ∧
          (s.request_tracker.remove_request bhash).1 = some peer
       then 1 else 0)) ∧
    (accepted = false →
      ("Get bad block " ++ toString bhash ++ " for peer " ++ toString peer) ∈
        out.2.1.errs peer) := by
  have hcore1 : (blockReportCore s sp accepted bhash peer).1.request_tracker.has_request
      bhash = false := remove_request_has s.request_tracker bhash
  have hcoreok := blockReportCore_ok s sp accepted bhash peer
  have hcoreerrs : accepted = false →
      ("Get bad block " ++ toString bhash ++ " for peer " ++ toString peer) ∈
        (blockReportCore s sp accepted bhash peer).2.errs peer := by
    intro ha
    subst ha
    exact blockReportCore_errs s sp bhash peer
  simp only [recieveBlockReporting] at h
  split at h
  · split at h
    · simp at h
      rw [← h]
      exact ⟨Or.inl hcore1, fun q => hcoreok q, hcoreerrs⟩
    · split at h
      · simp at h
        rw [← h]
        exact ⟨Or.inl hcore1, fun q => hcoreok q, hcoreerrs⟩
      · split at h
        · simp at h
        · rename_i st hst
          simp at h
          rw [← h]
          refine ⟨?_, ?_, ?_⟩
          · cases hhas : st.tracker.has_request bhash with
            | false => exact Or.inl rfl
            | true =>
              rcases sendRequestsLoop_has env _ _ _ _ hst bhash hhas with hold | hsend
              · rw [hcore1] at hold
                simp at hold
              · exact Or.inr hsend
          · intro q
            rw [sendRequestsLoop_ok env _ _ _ _ hst q]
            exact hcoreok q
          · intro ha
            exact sendRequestsLoop_errs env _ _ _ _ hst peer _ (hcoreerrs ha)
  · simp at h
    rw [← h]
    exact ⟨Or.inl hcore1, fun q => hcoreok q, hcoreerrs⟩

/-- Witness for C7: reporting tracked block 1 from peer 2 — accepted credits
exactly one ok to peer 2 and removes the request; rejected records the
bad-block message for peer 2. -/
theorem c7_block_reporting_witness :
    (outAcc.1.request_tracker.has_request 1 = false ∨
      sendsHas outAcc.2.2 1 = true) ∧
    outAcc.2.1.ok 2 = spW.ok 2 +
      (if true = true ∧ 2 = 2 ∧
          (sTracked.request_tracker.remove_request 1).1 = some 2
       then 1 else 0) ∧
    (("Get bad block " ++ toString 1 ++ " for peer " ++ toString 2) ∈
      outRej.2.1.errs 2) :=
  ⟨(c7_block_reporting envBad sTracked spW true 1 2 outAcc rfl).1,
   (c7_block_reporting envBad sTracked spW true 1 2 outAcc rfl).2.1 2,
   (c7_block_reporting envBad sTracked spW false 1 2 outRej rfl).2.2 rfl⟩

end MwcNode
